import Mathlib

/-!
Shallow embedding of the differential compiler-test harness
(`compiler_tester.py`, entry point `test_potato_cpu.py`).

The harness shells out at four places: `cargo build --release` (the Builder),
`ls <dir>` (the Corpus Locator), `./target/release/ca-compiler <path>` (the
Native x86 Adapter) and the external `PyPotatoCPUTester` service (the
Simulated Adapter).  Each external boundary is modelled by passing its
observable outcome in explicitly: a `SubprocessResult` for a subprocess, and
plain termination codes for the two per-test adapters.  The control flow of
each Python function is translated directly; external invocations are
recorded as `Event`s so that ordering and counting claims can be stated
about the emitted trace.
-/

/-- Result of a completed `subprocess.run` call: the returncode and the
captured `stdout` / `stderr` text streams. -/
structure SubprocessResult where
  returncode : Int
  stdout : String
  stderr : String
deriving DecidableEq

/-- The errors the harness raises.  In the source they are
`RuntimeError("Failed to list tests.")` (spec: CorpusNotFound),
`RuntimeError("Failed to build the compiler.")` (spec: BuildFailure),
a propagated `OSError` when a subprocess cannot be launched
(spec: AdapterLaunchFailure), and
`ValueError(message)` on a result mismatch (spec: DivergenceError), whose
payload is exactly the formatted message string. -/
inductive HarnessError where
  | corpusNotFound
  | buildFailure
  | adapterLaunchFailure
  | divergence (message : String)
deriving DecidableEq

/-- External invocations performed by the harness, recorded in order. -/
inductive Event where
  | listTests (chapter : Int)
  | buildInvoke
  | execX86 (chapter : Int) (file : String)
  | execPotato (chapter : Int) (file : String)
deriving DecidableEq

/-- Validity classes; `class Prefix(StrEnum)` in the source. -/
inductive Validity where
  | invalid_lex
  | invalid_parse
  | valid
deriving DecidableEq

def Validity.str : Validity → String
  | .invalid_lex => "invalid_lex"
  | .invalid_parse => "invalid_parse"
  | .valid => "valid"

def COMPILER_TESTS_DIR : String := "writing-a-c-compiler-tests"

/-- `CompilerTester.get_test_dir`. -/
def get_test_dir (chapter_no : Int) (p : Validity) : String :=
  COMPILER_TESTS_DIR ++ "/tests/chapter_" ++ toString chapter_no ++ "/" ++ p.str

/-- `CompilerTester.get_test_path`. -/
def get_test_path (test_name : String) (chapter_no : Int) (p : Validity) : String :=
  get_test_dir chapter_no p ++ "/" ++ test_name

/-- The (ASCII) whitespace characters Python's `str.strip()` removes. -/
def pyIsSpace (c : Char) : Bool :=
  c == ' ' || c == '\t' || c == '\n' || c == '\r' ||
    c == Char.ofNat 11 || c == Char.ofNat 12

/-- Python `str.strip()` on the character list: drop whitespace from both
ends. -/
def pyStripChars (l : List Char) : List Char :=
  ((l.dropWhile pyIsSpace).reverse.dropWhile pyIsSpace).reverse

/-- Python `str.split(sep)` for a one-character separator, on the character
list: `pySplitChar sep [] = [[]]`, matching `''.split(sep) == ['']`. -/
def pySplitChar (sep : Char) : List Char → List (List Char)
  | [] => [[]]
  | c :: rest =>
    match pySplitChar sep rest with
    | [] => [[]]
    | h :: t => if c == sep then [] :: h :: t else (c :: h) :: t

/-- `ls_result.stdout.strip().split(chr 10)` from
`CompilerTester.list_valid_tests`. -/
def splitLines (stdout : String) : List String :=
  (pySplitChar '\n' (pyStripChars stdout.data)).map String.mk

/-- Python `s.endswith(suffix)`. -/
def pyEndsWith (s suffix : String) : Bool :=
  suffix.data.isSuffixOf s.data

/-- `CompilerTester.list_valid_tests`, taking the outcome of the
`ls <test_dir>` subprocess as input: a nonzero returncode (the directory
does not exist) raises, otherwise the stripped stdout is split into lines
and filtered to names ending in `.c`. -/
def list_valid_tests (ls : SubprocessResult) : Except HarnessError (List String) :=
  if ls.returncode ≠ 0 then .error .corpusNotFound
  else .ok ((splitLines ls.stdout).filter (fun f => pyEndsWith f ".c"))

/-- `CompilerTester.build`: given the tester's `built` flag, the
`force_rebuild` argument and the outcome of `cargo build --release`, returns
the emitted events, the new `built` flag, and the returned code or the
raised error.  If already built and not forced, it returns 0 at once without
invoking the build; otherwise it invokes the external build, raises on a
nonzero status (leaving `built` unchanged), and on success sets `built` and
returns the (zero) code. -/
def build (built : Bool) (force_rebuild : Bool) (buildResult : SubprocessResult) :
    List Event × Bool × Except HarnessError Int :=
  if built && !force_rebuild then ([], built, .ok 0)
  else
    ([.buildInvoke],
     if buildResult.returncode ≠ 0 then built else true,
     if buildResult.returncode ≠ 0 then .error .buildFailure
     else .ok buildResult.returncode)

/-- `CompilerTester.execute_test_x86`: runs the compiled binary on the test
and returns the child's returncode unchanged.  `none` stands for
`subprocess.run` itself failing to launch the binary (the propagated
`OSError`); a completed run never raises, whatever its returncode. -/
def execute_test_x86 (run : Option SubprocessResult) : Except HarnessError Int :=
  match run with
  | none => .error .adapterLaunchFailure
  | some r => .ok r.returncode

/-- The outside world as seen by one run of the harness: for every chapter,
the outcome of `ls` on its `valid` directory; the outcome of the external
build command; and for every (chapter, file), the termination codes reported
by the x86 binary and by the Potato CPU service. -/
structure Env where
  ls : Int → SubprocessResult
  buildResult : SubprocessResult
  x86Ret : Int → String → Int
  potatoRet : Int → String → Int

/-- The `valid` corpus of a chapter as `list_valid_tests` returns it
(meaningful when `(env.ls c).returncode = 0`). -/
def filesOf (env : Env) (c : Int) : List String :=
  match list_valid_tests (env.ls c) with
  | .ok fs => fs
  | .error _ => []

/-- `CompilerTester.count_total_tests`: lists every requested chapter in
order, summing corpus sizes; a listing failure propagates at once. -/
def count_total_tests (env : Env) : List Int → List Event × Except HarnessError Int
  | [] => ([], .ok 0)
  | c :: rest =>
    match list_valid_tests (env.ls c) with
    | .error e => ([.listTests c], .error e)
    | .ok files =>
      match count_total_tests env rest with
      | (evs, .error e) => (.listTests c :: evs, .error e)
      | (evs, .ok n) => (.listTests c :: evs, .ok (files.length + n))

/-- The f-string of the `ValueError` raised on a divergence:
`FAILED (x86: ..., Potato CPU: ...)`. -/
def divergenceMessage (x86 potatoCpu : Int) : String :=
  "FAILED (x86: " ++ toString x86 ++ ", Potato CPU: " ++ toString potatoCpu ++ ")"

/-- The inner `for test_file in valid_tests` loop of
`CompilerTester.validate_potato_cpu`: each test runs on x86 then on the
Potato CPU; on the first differing pair of codes the `ValueError` is raised
and no later test is touched. -/
def run_tests (env : Env) (chapter : Int) : List String → List Event × Except HarnessError Unit
  | [] => ([], .ok ())
  | f :: rest =>
    let x := env.x86Ret chapter f
    let p := env.potatoRet chapter f
    if x ≠ p then
      ([.execX86 chapter f, .execPotato chapter f],
       .error (.divergence (divergenceMessage x p)))
    else
      match run_tests env chapter rest with
      | (evs, r) => (.execX86 chapter f :: .execPotato chapter f :: evs, r)

/-- The outer `for chapter in chapters_to_test` loop of
`CompilerTester.validate_potato_cpu`: each chapter's `valid` corpus is
listed again and its tests are run in listed order. -/
def run_chapters (env : Env) : List Int → List Event × Except HarnessError Unit
  | [] => ([], .ok ())
  | c :: rest =>
    match list_valid_tests (env.ls c) with
    | .error e => ([.listTests c], .error e)
    | .ok files =>
      match run_tests env c files with
      | (evs, .error e) => (.listTests c :: evs, .error e)
      | (evs, .ok _) =>
        match run_chapters env rest with
        | (evs2, r) => (.listTests c :: (evs ++ evs2), r)

/-- `CompilerTester.validate_potato_cpu`: constructs a fresh tester
(`built = false`), counts the total tests (listing every chapter once),
then — when `build_before_test` — calls `build(force_rebuild=False)`, and
finally iterates the chapters.  Any raise propagates immediately. -/
def validate_potato_cpu (env : Env) (chapters_to_test : List Int)
    (build_before_test : Bool) : List Event × Except HarnessError Unit :=
  match count_total_tests env chapters_to_test with
  | (evs, .error e) => (evs, .error e)
  | (evs, .ok _total) =>
    if build_before_test then
      match build false false env.buildResult with
      | (bevs, _built, .error e) => (evs ++ bevs, .error e)
      | (bevs, _built, .ok _) =>
        match run_chapters env chapters_to_test with
        | (revs, r) => (evs ++ (bevs ++ revs), r)
    else
      match run_chapters env chapters_to_test with
      | (revs, r) => (evs ++ revs, r)

/-- Structural decidable equality for `Except`, so that concrete runs of the
harness can be checked by `decide`. -/
def exceptDecEq {ε α : Type} [DecidableEq ε] [DecidableEq α] :
    (a b : Except ε α) → Decidable (a = b)
  | .error e, .error f =>
    if h : e = f then .isTrue (by rw [h])
    else .isFalse (fun hh => by cases hh; exact h rfl)
  | .error _, .ok _ => .isFalse (fun h => Except.noConfusion h)
  | .ok _, .error _ => .isFalse (fun h => Except.noConfusion h)
  | .ok a, .ok b =>
    if h : a = b then .isTrue (by rw [h])
    else .isFalse (fun hh => by cases hh; exact h rfl)

instance {ε α : Type} [DecidableEq ε] [DecidableEq α] : DecidableEq (Except ε α) :=
  exceptDecEq

/-! ### Helper lemmas about the embedded harness -/

lemma list_valid_tests_of_ok {ls : SubprocessResult} (h : ls.returncode = 0) :
    list_valid_tests ls = .ok ((splitLines ls.stdout).filter (fun f => pyEndsWith f ".c")) := by
  simp [list_valid_tests, h]

lemma filesOf_eq {env : Env} {c : Int} (h : (env.ls c).returncode = 0) :
    list_valid_tests (env.ls c) = .ok (filesOf env c) := by
  simp [filesOf, list_valid_tests_of_ok h]

lemma count_total_tests_success (env : Env) (chs : List Int)
    (h : ∀ c ∈ chs, (env.ls c).returncode = 0) :
    count_total_tests env chs =
      (chs.map Event.listTests, .ok ((chs.map (fun c => (filesOf env c).length)).sum)) := by
  induction chs with
  | nil => simp [count_total_tests]
  | cons c rest ih =>
    have hc : (env.ls c).returncode = 0 := h c (by simp)
    have hrest : ∀ c' ∈ rest, (env.ls c').returncode = 0 := fun c' hc' => h c' (by simp [hc'])
    simp [count_total_tests, filesOf_eq hc, ih hrest]

lemma count_total_tests_events (env : Env) (chs : List Int) :
    ∀ e ∈ (count_total_tests env chs).1, ∃ c, e = Event.listTests c := by
  induction chs with
  | nil => simp [count_total_tests]
  | cons c rest ih =>
    intro e he
    rcases h1 : list_valid_tests (env.ls c) with e1 | files
    · simp [count_total_tests, h1] at he
      exact ⟨c, he⟩
    · rcases h2 : count_total_tests env rest with ⟨evs, r⟩
      rcases r with e2 | n
      · simp [count_total_tests, h1, h2] at he
        rcases he with he | he
        · exact ⟨c, he⟩
        · exact ih e (by rw [h2]; exact he)
      · simp [count_total_tests, h1, h2] at he
        rcases he with he | he
        · exact ⟨c, he⟩
        · exact ih e (by rw [h2]; exact he)

lemma count_total_tests_fail (env : Env) (pre : List Int) (c : Int) (post : List Int)
    (hpre : ∀ c' ∈ pre, (env.ls c').returncode = 0)
    (hc : (env.ls c).returncode ≠ 0) :
    count_total_tests env (pre ++ c :: post) =
      (pre.map Event.listTests ++ [Event.listTests c], .error .corpusNotFound) := by
  induction pre with
  | nil =>
    have : list_valid_tests (env.ls c) = .error .corpusNotFound := by
      simp [list_valid_tests, hc]
    simp [count_total_tests, this]
  | cons c' rest ih =>
    have hc' : (env.ls c').returncode = 0 := hpre c' (by simp)
    have hrest : ∀ x ∈ rest, (env.ls x).returncode = 0 := fun x hx => hpre x (by simp [hx])
    simp [count_total_tests, filesOf_eq hc', ih hrest]

lemma run_tests_ok (env : Env) (c : Int) (files : List String)
    (h : ∀ f ∈ files, env.x86Ret c f = env.potatoRet c f) :
    run_tests env c files =
      (files.flatMap (fun f => [Event.execX86 c f, Event.execPotato c f]), .ok ()) := by
  induction files with
  | nil => simp [run_tests]
  | cons f rest ih =>
    have hf : env.x86Ret c f = env.potatoRet c f := h f (by simp)
    have hrest : ∀ g ∈ rest, env.x86Ret c g = env.potatoRet c g :=
      fun g hg => h g (by simp [hg])
    simp [run_tests, hf, ih hrest]

lemma run_tests_div (env : Env) (c : Int) (pre : List String) (f : String) (post : List String)
    (hpre : ∀ g ∈ pre, env.x86Ret c g = env.potatoRet c g)
    (hf : env.x86Ret c f ≠ env.potatoRet c f) :
    run_tests env c (pre ++ f :: post) =
      (pre.flatMap (fun g => [Event.execX86 c g, Event.execPotato c g]) ++
         [Event.execX86 c f, Event.execPotato c f],
       .error (.divergence (divergenceMessage (env.x86Ret c f) (env.potatoRet c f)))) := by
  induction pre with
  | nil => simp [run_tests, hf]
  | cons g rest ih =>
    have hg : env.x86Ret c g = env.potatoRet c g := hpre g (by simp)
    have hrest : ∀ x ∈ rest, env.x86Ret c x = env.potatoRet c x :=
      fun x hx => hpre x (by simp [hx])
    simp [run_tests, hg, ih hrest]

lemma run_chapters_ok (env : Env) (chs : List Int)
    (hls : ∀ c ∈ chs, (env.ls c).returncode = 0)
    (hnd : ∀ c ∈ chs, ∀ f ∈ filesOf env c, env.x86Ret c f = env.potatoRet c f) :
    run_chapters env chs =
      (chs.flatMap (fun c => Event.listTests c ::
         (filesOf env c).flatMap (fun f => [Event.execX86 c f, Event.execPotato c f])),
       .ok ()) := by
  induction chs with
  | nil => simp [run_chapters]
  | cons c rest ih =>
    have hc : (env.ls c).returncode = 0 := hls c (by simp)
    have hrls : ∀ c' ∈ rest, (env.ls c').returncode = 0 := fun c' h => hls c' (by simp [h])
    have hrnd : ∀ c' ∈ rest, ∀ f ∈ filesOf env c', env.x86Ret c' f = env.potatoRet c' f :=
      fun c' h => hnd c' (by simp [h])
    have hrun := run_tests_ok env c (filesOf env c) (hnd c (by simp))
    simp [run_chapters, filesOf_eq hc, hrun, ih hrls hrnd]

lemma validate_of_build_ok (env : Env) (chs : List Int)
    (hls : ∀ c ∈ chs, (env.ls c).returncode = 0)
    (hb : env.buildResult.returncode = 0) :
    validate_potato_cpu env chs true =
      (chs.map Event.listTests ++ Event.buildInvoke :: (run_chapters env chs).1,
       (run_chapters env chs).2) := by
  rcases h : run_chapters env chs with ⟨revs, r⟩
  simp [validate_potato_cpu, count_total_tests_success env chs hls, build, hb, h]

lemma validate_of_build_fail (env : Env) (chs : List Int)
    (hls : ∀ c ∈ chs, (env.ls c).returncode = 0)
    (hb : env.buildResult.returncode ≠ 0) :
    validate_potato_cpu env chs true =
      (chs.map Event.listTests ++ [Event.buildInvoke], .error .buildFailure) := by
  simp [validate_potato_cpu, count_total_tests_success env chs hls, build, hb]

lemma validate_of_no_build (env : Env) (chs : List Int)
    (hls : ∀ c ∈ chs, (env.ls c).returncode = 0) :
    validate_potato_cpu env chs false =
      (chs.map Event.listTests ++ (run_chapters env chs).1,
       (run_chapters env chs).2) := by
  rcases h : run_chapters env chs with ⟨revs, r⟩
  simp [validate_potato_cpu, count_total_tests_success env chs hls, h]

lemma validate_of_count_fail (env : Env) (pre : List Int) (c : Int) (post : List Int)
    (b : Bool)
    (hpre : ∀ c' ∈ pre, (env.ls c').returncode = 0)
    (hc : (env.ls c).returncode ≠ 0) :
    validate_potato_cpu env (pre ++ c :: post) b =
      (pre.map Event.listTests ++ [Event.listTests c], .error .corpusNotFound) := by
  simp [validate_potato_cpu, count_total_tests_fail env pre c post hpre hc]

lemma list_valid_tests_returncode {ls : SubprocessResult} {files : List String}
    (h : list_valid_tests ls = .ok files) : ls.returncode = 0 := by
  by_contra hne
  simp [list_valid_tests, hne] at h

/-! ### Claims -/

/-- C7: the Corpus Locator distinguishes a missing directory (the `ls`
subprocess exits nonzero, so `list_valid_tests` raises CorpusNotFound)
from an existing empty directory (`ls` exits 0 with empty stdout, and the
listing succeeds with the empty list). -/
theorem claim_C7 (ls1 ls2 : SubprocessResult)
    (h1 : ls1.returncode ≠ 0) (h2 : ls2.returncode = 0) (h3 : ls2.stdout = "") :
    list_valid_tests ls1 = .error .corpusNotFound ∧ list_valid_tests ls2 = .ok [] := by
  constructor
  · simp [list_valid_tests, h1]
  · rw [list_valid_tests_of_ok h2, h3]
    decide

theorem claim_C7_witness :
    (SubprocessResult.returncode ⟨2, "", "ls: no such directory"⟩ ≠ 0) ∧
    (SubprocessResult.returncode ⟨0, "", ""⟩ = 0) ∧
    (list_valid_tests ⟨2, "", "ls: no such directory"⟩ = .error .corpusNotFound ∧
     list_valid_tests ⟨0, "", ""⟩ = .ok []) :=
  ⟨by decide, by decide,
   claim_C7 ⟨2, "", "ls: no such directory"⟩ ⟨0, "", ""⟩ (by decide) (by decide) (by decide)⟩

/-- C8: for every successful directory listing, the Corpus Locator returns
exactly the lines of the listing that end in `.c` — every returned name is
a source name, and every listed source name is returned. -/
theorem claim_C8 (ls : SubprocessResult) (files : List String)
    (h : ls.returncode = 0) (hres : list_valid_tests ls = .ok files) :
    ∀ f, f ∈ files ↔ (f ∈ splitLines ls.stdout ∧ pyEndsWith f ".c" = true) := by
  rw [list_valid_tests_of_ok h] at hres
  cases hres
  intro f
  simp [List.mem_filter]

theorem claim_C8_witness :
    (SubprocessResult.returncode ⟨0, "add.c\nsub.c\nmul.c\ndiv.c\nneg.c\nREADME.md\nMakefile\n", ""⟩ = 0) ∧
    (list_valid_tests ⟨0, "add.c\nsub.c\nmul.c\ndiv.c\nneg.c\nREADME.md\nMakefile\n", ""⟩ =
      .ok ["add.c", "sub.c", "mul.c", "div.c", "neg.c"]) ∧
    (∀ f, f ∈ ["add.c", "sub.c", "mul.c", "div.c", "neg.c"] ↔
      (f ∈ splitLines "add.c\nsub.c\nmul.c\ndiv.c\nneg.c\nREADME.md\nMakefile\n" ∧
       pyEndsWith f ".c" = true)) :=
  ⟨by decide, by decide,
   claim_C8 ⟨0, "add.c\nsub.c\nmul.c\ndiv.c\nneg.c\nREADME.md\nMakefile\n", ""⟩
     ["add.c", "sub.c", "mul.c", "div.c", "neg.c"] (by decide) (by decide)⟩

/-- C9: the Native Adapter returns the child process's termination code
unchanged and never raises for a completed run, whatever the code; a launch
failure is a distinct error outcome. -/
theorem claim_C9 : ∀ r : SubprocessResult,
    execute_test_x86 (some r) = .ok r.returncode ∧
    (∀ e : HarnessError, execute_test_x86 (some r) ≠ .error e) ∧
    execute_test_x86 none = .error .adapterLaunchFailure := by
  intro r
  refine ⟨rfl, ?_, rfl⟩
  intro e h
  simp [execute_test_x86] at h

/-- C4: Builder idempotence.  From a fresh tester, a first successful
`build(force_rebuild=False)` performs the one external invocation, sets the
flag and returns 0; a second `build(force_rebuild=False)` performs no
invocation and returns 0 at once regardless of the external outcome; and
`build(force_rebuild=True)` always performs an external invocation. -/
theorem claim_C4 (r r2 : SubprocessResult) (b : Bool) (h : r.returncode = 0) :
    build false false r = ([Event.buildInvoke], true, .ok 0) ∧
    build (build false false r).2.1 false r2 = ([], true, .ok 0) ∧
    (build b true r2).1 = [Event.buildInvoke] := by
  have h1 : build false false r = ([Event.buildInvoke], true, .ok 0) := by
    simp [build, h]
  refine ⟨h1, ?_, ?_⟩
  · rw [h1]
    simp [build]
  · cases b <;> simp [build]

theorem claim_C4_witness :
    (SubprocessResult.returncode ⟨0, "ok", ""⟩ = 0) ∧
    (build false false ⟨0, "ok", ""⟩ = ([Event.buildInvoke], true, .ok 0) ∧
     build (build false false ⟨0, "ok", ""⟩).2.1 false ⟨1, "", "err"⟩ = ([], true, .ok 0) ∧
     (build true true ⟨1, "", "err"⟩).1 = [Event.buildInvoke]) :=
  ⟨by decide, claim_C4 ⟨0, "ok", ""⟩ ⟨1, "", "err"⟩ true (by decide)⟩

/-- C5: a nonzero build status makes `build` raise BuildFailure and leaves
the `built` flag false; a run whose external build fails ends with
BuildFailure and contains no adapter invocation. -/
theorem claim_C5 (r : SubprocessResult) (force : Bool) (env : Env) (chs : List Int)
    (hr : r.returncode ≠ 0)
    (henv : env.buildResult.returncode ≠ 0)
    (hls : ∀ c ∈ chs, (env.ls c).returncode = 0) :
    build false force r = ([Event.buildInvoke], false, .error .buildFailure) ∧
    (validate_potato_cpu env chs true).2 = .error .buildFailure ∧
    (∀ c f, Event.execX86 c f ∉ (validate_potato_cpu env chs true).1 ∧
            Event.execPotato c f ∉ (validate_potato_cpu env chs true).1) := by
  have hv := validate_of_build_fail env chs hls henv
  refine ⟨?_, by rw [hv], ?_⟩
  · cases force <;> simp [build, hr]
  · intro c f
    rw [hv]
    constructor <;> simp

theorem claim_C5_witness :
    (SubprocessResult.returncode ⟨101, "", "compile error"⟩ ≠ 0) ∧
    (build false false ⟨101, "", "compile error"⟩ =
       ([Event.buildInvoke], false, .error .buildFailure) ∧
     (validate_potato_cpu
        { ls := fun _ => ⟨0, "a.c\n", ""⟩, buildResult := ⟨101, "", "compile error"⟩,
          x86Ret := fun _ _ => 0, potatoRet := fun _ _ => 0 } [1] true).2 =
       .error .buildFailure ∧
     (∀ c f, Event.execX86 c f ∉
          (validate_potato_cpu
            { ls := fun _ => ⟨0, "a.c\n", ""⟩, buildResult := ⟨101, "", "compile error"⟩,
              x86Ret := fun _ _ => 0, potatoRet := fun _ _ => 0 } [1] true).1 ∧
        Event.execPotato c f ∉
          (validate_potato_cpu
            { ls := fun _ => ⟨0, "a.c\n", ""⟩, buildResult := ⟨101, "", "compile error"⟩,
              x86Ret := fun _ _ => 0, potatoRet := fun _ _ => 0 } [1] true).1)) :=
  ⟨by decide,
   claim_C5 ⟨101, "", "compile error"⟩ false
     { ls := fun _ => ⟨0, "a.c\n", ""⟩, buildResult := ⟨101, "", "compile error"⟩,
       x86Ret := fun _ _ => 0, potatoRet := fun _ _ => 0 } [1]
     (by decide) (by decide) (by intro c _; rfl)⟩

lemma exec_mem_pairs {c : Int} {files : List String} {e : Event} :
    e ∈ files.flatMap (fun g => [Event.execX86 c g, Event.execPotato c g]) →
    ∃ g ∈ files, e = Event.execX86 c g ∨ e = Event.execPotato c g := by
  intro h
  rcases List.mem_flatMap.1 h with ⟨g, hg, hmem⟩
  simp only [List.mem_cons, List.not_mem_nil, or_false] at hmem
  rcases hmem with h1 | h1
  · exact ⟨g, hg, Or.inl h1⟩
  · exact ⟨g, hg, Or.inr h1⟩

/-- C1: fail-fast.  When the first chapter's corpus is `pre ++ f :: post`,
every test in `pre` agrees on both backends and `f` diverges, the run stops
with the single DivergenceError raised at `f`: the full trace is the count
phase, the one build, the re-listing and the executions up to and including
`f` — and no adapter runs for any test of `post` or of any later chapter. -/
theorem claim_C1 (env : Env) (c : Int) (others : List Int)
    (pre : List String) (f : String) (post : List String)
    (hls : list_valid_tests (env.ls c) = .ok (pre ++ f :: post))
    (hothers : ∀ c' ∈ others, (env.ls c').returncode = 0)
    (hpre : ∀ g ∈ pre, env.x86Ret c g = env.potatoRet c g)
    (hf : env.x86Ret c f ≠ env.potatoRet c f)
    (hb : env.buildResult.returncode = 0) :
    validate_potato_cpu env (c :: others) true =
      ((c :: others).map Event.listTests ++ Event.buildInvoke :: Event.listTests c ::
         (pre.flatMap (fun g => [Event.execX86 c g, Event.execPotato c g]) ++
          [Event.execX86 c f, Event.execPotato c f]),
       .error (.divergence (divergenceMessage (env.x86Ret c f) (env.potatoRet c f)))) ∧
    (∀ c' g, (Event.execX86 c' g ∈ (validate_potato_cpu env (c :: others) true).1 ∨
              Event.execPotato c' g ∈ (validate_potato_cpu env (c :: others) true).1) →
       c' = c ∧ (g ∈ pre ∨ g = f)) := by
  have hc0 : (env.ls c).returncode = 0 := list_valid_tests_returncode hls
  have hall : ∀ x ∈ c :: others, (env.ls x).returncode = 0 := by
    intro x hx
    rcases List.mem_cons.1 hx with h | h
    · exact h ▸ hc0
    · exact hothers x h
  have hrt := run_tests_div env c pre f post hpre hf
  have hrc : run_chapters env (c :: others) =
      (Event.listTests c ::
        (pre.flatMap (fun g => [Event.execX86 c g, Event.execPotato c g]) ++
         [Event.execX86 c f, Event.execPotato c f]),
       .error (.divergence (divergenceMessage (env.x86Ret c f) (env.potatoRet c f)))) := by
    simp [run_chapters, hls, hrt]
  have hv := validate_of_build_ok env (c :: others) hall hb
  rw [hrc] at hv
  refine ⟨hv, ?_⟩
  intro c' g hg
  rw [hv] at hg
  simp only [List.mem_append, List.mem_cons, List.mem_map] at hg
  rcases hg with hg | hg
  · rcases hg with ⟨a, -, ha⟩ | h | h | h | h | h | h
    · simp at ha
    · simp at h
    · simp at h
    · rcases exec_mem_pairs h with ⟨x, hx, h1 | h1⟩
      · simp only [Event.execX86.injEq] at h1
        exact ⟨h1.1, Or.inl (h1.2 ▸ hx)⟩
      · simp at h1
    · simp only [Event.execX86.injEq] at h
      exact ⟨h.1, Or.inr h.2⟩
    · simp at h
    · simp at h
  · rcases hg with ⟨a, -, ha⟩ | h | h | h | h | h | h
    · simp at ha
    · simp at h
    · simp at h
    · rcases exec_mem_pairs h with ⟨x, hx, h1 | h1⟩
      · simp at h1
      · simp only [Event.execPotato.injEq] at h1
        exact ⟨h1.1, Or.inl (h1.2 ▸ hx)⟩
    · simp at h
    · simp only [Event.execPotato.injEq] at h
      exact ⟨h.1, Or.inr h.2⟩
    · simp at h

/-- A corpus of three tests where the second diverges (x86 gives 1,
Potato CPU gives 0 on `t2.c`). -/
def envC1 : Env where
  ls := fun _ => ⟨0, "t1.c\nt2.c\nt3.c\n", ""⟩
  buildResult := ⟨0, "", ""⟩
  x86Ret := fun _ f => if f = "t2.c" then 1 else 0
  potatoRet := fun _ _ => 0

theorem claim_C1_witness :
    (list_valid_tests (envC1.ls 1) = .ok (["t1.c"] ++ "t2.c" :: ["t3.c"])) ∧
    (envC1.x86Ret 1 "t2.c" ≠ envC1.potatoRet 1 "t2.c") ∧
    (validate_potato_cpu envC1 (1 :: []) true =
      ((1 :: ([] : List Int)).map Event.listTests ++ Event.buildInvoke :: Event.listTests 1 ::
         (["t1.c"].flatMap (fun g => [Event.execX86 1 g, Event.execPotato 1 g]) ++
          [Event.execX86 1 "t2.c", Event.execPotato 1 "t2.c"]),
       .error (.divergence (divergenceMessage (envC1.x86Ret 1 "t2.c") (envC1.potatoRet 1 "t2.c")))) ∧
     (∀ c' g, (Event.execX86 c' g ∈ (validate_potato_cpu envC1 (1 :: []) true).1 ∨
               Event.execPotato c' g ∈ (validate_potato_cpu envC1 (1 :: []) true).1) →
        c' = 1 ∧ (g ∈ ["t1.c"] ∨ g = "t2.c"))) :=
  ⟨by decide, by decide,
   claim_C1 envC1 1 [] ["t1.c"] "t2.c" ["t3.c"]
     (by decide) (by simp) (by decide) (by decide) (by decide)⟩

/-- A run whose single test diverges at chapter 1, file `alpha.c`, with
codes x86 = 0, Potato CPU = 1. -/
def envC2a : Env where
  ls := fun _ => ⟨0, "alpha.c\n", ""⟩
  buildResult := ⟨0, "", ""⟩
  x86Ret := fun _ _ => 0
  potatoRet := fun _ _ => 1

/-- A run whose single test diverges at chapter 2, file `beta.c`, with the
same codes as `envC2a`. -/
def envC2b : Env where
  ls := fun _ => ⟨0, "beta.c\n", ""⟩
  buildResult := ⟨0, "", ""⟩
  x86Ret := fun _ _ => 0
  potatoRet := fun _ _ => 1

/-- C2 fails on the code: two runs whose offending TestCases differ in both
chapter (1 vs 2) and file name (`alpha.c` vs `beta.c`) raise *identical*
errors, because the `ValueError` message is built from the two termination
codes alone — so the raised error does not carry the chapter or the file
name. -/
theorem claim_C2_counterexample :
    Event.execX86 1 "alpha.c" ∈ (validate_potato_cpu envC2a [1] true).1 ∧
    Event.execX86 2 "beta.c" ∈ (validate_potato_cpu envC2b [2] true).1 ∧
    (validate_potato_cpu envC2a [1] true).2 =
      .error (.divergence "FAILED (x86: 0, Potato CPU: 1)") ∧
    (validate_potato_cpu envC2a [1] true).2 = (validate_potato_cpu envC2b [2] true).2 := by
  decide

/-- C2 amended: the error raised on the first divergence is the
`ValueError` whose message reports the two differing termination codes
(and nothing else: it is `divergenceMessage x86 potato`, a function of the
two codes alone). -/
theorem claim_C2_amended (env : Env) (c : Int)
    (pre : List String) (f : String) (post : List String)
    (hls : list_valid_tests (env.ls c) = .ok (pre ++ f :: post))
    (hpre : ∀ g ∈ pre, env.x86Ret c g = env.potatoRet c g)
    (hf : env.x86Ret c f ≠ env.potatoRet c f)
    (hb : env.buildResult.returncode = 0) :
    (validate_potato_cpu env [c] true).2 =
      .error (.divergence (divergenceMessage (env.x86Ret c f) (env.potatoRet c f))) := by
  have hc0 : (env.ls c).returncode = 0 := list_valid_tests_returncode hls
  have hall : ∀ x ∈ [c], (env.ls x).returncode = 0 := by simpa using hc0
  have hrt := run_tests_div env c pre f post hpre hf
  have hrc : run_chapters env [c] =
      (Event.listTests c ::
        (pre.flatMap (fun g => [Event.execX86 c g, Event.execPotato c g]) ++
         [Event.execX86 c f, Event.execPotato c f]),
       .error (.divergence (divergenceMessage (env.x86Ret c f) (env.potatoRet c f)))) := by
    simp [run_chapters, hls, hrt]
  have hv := validate_of_build_ok env [c] hall hb
  rw [hv, hrc]

theorem claim_C2_witness :
    (list_valid_tests (envC2a.ls 1) = .ok ([] ++ "alpha.c" :: [])) ∧
    (envC2a.x86Ret 1 "alpha.c" ≠ envC2a.potatoRet 1 "alpha.c") ∧
    (validate_potato_cpu envC2a [1] true).2 =
      .error (.divergence (divergenceMessage (envC2a.x86Ret 1 "alpha.c")
        (envC2a.potatoRet 1 "alpha.c"))) :=
  ⟨by decide, by decide,
   claim_C2_amended envC2a 1 [] "alpha.c" [] (by decide) (by simp) (by decide) (by decide)⟩

/-- A run started with the rebuild-skipping flag: the build command would
fail (nonzero status), yet the run executes its test and succeeds, because
the Builder is never consulted. -/
def envC3 : Env where
  ls := fun _ => ⟨0, "a.c\n", ""⟩
  buildResult := ⟨1, "", "build would fail"⟩
  x86Ret := fun _ _ => 0
  potatoRet := fun _ _ => 0

/-- C3 fails on the code: with `build_before_test = False` (the CLI's
`--no-build` flag) the build step is skipped entirely, and the TestCase is
executed through both adapters although the Builder never reported (or even
attempted) a build in that run. -/
theorem claim_C3_counterexample :
    Event.execX86 1 "a.c" ∈ (validate_potato_cpu envC3 [1] false).1 ∧
    Event.execPotato 1 "a.c" ∈ (validate_potato_cpu envC3 [1] false).1 ∧
    Event.buildInvoke ∉ (validate_potato_cpu envC3 [1] false).1 ∧
    (validate_potato_cpu envC3 [1] false).2 = .ok () := by
  decide

/-- C3 amended: when `build_before_test = True` (the flag is not set), no
TestCase is executed before the Builder has reported a successful build —
any adapter event in the trace forces a zero build status, and the trace
splits as `t1 ++ buildInvoke :: t2` with every adapter event after the
build invocation. -/
theorem claim_C3_amended (env : Env) (chs : List Int) (c : Int) (f : String)
    (h : Event.execX86 c f ∈ (validate_potato_cpu env chs true).1 ∨
         Event.execPotato c f ∈ (validate_potato_cpu env chs true).1) :
    env.buildResult.returncode = 0 ∧
    ∃ t1 t2, (validate_potato_cpu env chs true).1 = t1 ++ Event.buildInvoke :: t2 ∧
      ∀ c' f', Event.execX86 c' f' ∉ t1 ∧ Event.execPotato c' f' ∉ t1 := by
  rcases hct : count_total_tests env chs with ⟨evs, r⟩
  have hevs : ∀ e ∈ evs, ∃ a, e = Event.listTests a := by
    intro e he
    exact count_total_tests_events env chs e (by rw [hct]; exact he)
  rcases r with e | n
  · have hv : validate_potato_cpu env chs true = (evs, .error e) := by
      simp [validate_potato_cpu, hct]
    rw [hv] at h
    exfalso
    rcases h with h | h <;> · rcases hevs _ h with ⟨a, ha⟩; simp at ha
  · by_cases hb : env.buildResult.returncode = 0
    · rcases hrc : run_chapters env chs with ⟨revs, rr⟩
      have hv : (validate_potato_cpu env chs true).1 = evs ++ Event.buildInvoke :: revs := by
        simp [validate_potato_cpu, hct, build, hb, hrc]
      refine ⟨hb, evs, revs, hv, ?_⟩
      intro c' f'
      constructor <;> · intro hmem; rcases hevs _ hmem with ⟨a, ha⟩; simp at ha
    · have hv : validate_potato_cpu env chs true =
          (evs ++ [Event.buildInvoke], .error .buildFailure) := by
        simp [validate_potato_cpu, hct, build, hb]
      rw [hv] at h
      exfalso
      rcases h with h | h <;>
      · rcases List.mem_append.1 h with h1 | h1
        · rcases hevs _ h1 with ⟨a, ha⟩; simp at ha
        · simp at h1

/-- A plain successful run: one chapter, two agreeing tests. -/
def envOk : Env where
  ls := fun _ => ⟨0, "a.c\nb.c\n", ""⟩
  buildResult := ⟨0, "", ""⟩
  x86Ret := fun _ _ => 0
  potatoRet := fun _ _ => 0

theorem claim_C3_witness :
    (Event.execX86 1 "a.c" ∈ (validate_potato_cpu envOk [1] true).1 ∨
     Event.execPotato 1 "a.c" ∈ (validate_potato_cpu envOk [1] true).1) ∧
    (envOk.buildResult.returncode = 0 ∧
     ∃ t1 t2, (validate_potato_cpu envOk [1] true).1 = t1 ++ Event.buildInvoke :: t2 ∧
       ∀ c' f', Event.execX86 c' f' ∉ t1 ∧ Event.execPotato c' f' ∉ t1) :=
  ⟨by decide, claim_C3_amended envOk [1] 1 "a.c" (by decide)⟩

lemma count_execX86_pairs (c c' : Int) (f : String) (files : List String) :
    (files.flatMap (fun g => [Event.execX86 c g, Event.execPotato c g])).count
      (Event.execX86 c' f) = if c' = c then files.count f else 0 := by
  induction files with
  | nil => simp
  | cons g rest ih =>
    simp only [List.flatMap_cons, List.count_append, List.count_cons, List.count_nil, ih]
    by_cases hc : c' = c <;> by_cases hg : g = f <;>
      simp [hc, hg, beq_iff_eq] <;> omega

lemma count_execPotato_pairs (c c' : Int) (f : String) (files : List String) :
    (files.flatMap (fun g => [Event.execX86 c g, Event.execPotato c g])).count
      (Event.execPotato c' f) = if c' = c then files.count f else 0 := by
  induction files with
  | nil => simp
  | cons g rest ih =>
    simp only [List.flatMap_cons, List.count_append, List.count_cons, List.count_nil, ih]
    by_cases hc : c' = c <;> by_cases hg : g = f <;>
      simp [hc, hg, beq_iff_eq] <;> omega

lemma count_listTests_pairs (c a : Int) (files : List String) :
    (files.flatMap (fun g => [Event.execX86 c g, Event.execPotato c g])).count
      (Event.listTests a) = 0 := by
  rw [List.count_eq_zero]
  intro h
  rcases exec_mem_pairs h with ⟨g, -, h1 | h1⟩ <;> simp at h1

lemma count_execX86_outer (env : Env) (chs : List Int) (c : Int) (f : String) :
    (chs.flatMap (fun c' => Event.listTests c' ::
       (filesOf env c').flatMap (fun g => [Event.execX86 c' g, Event.execPotato c' g]))).count
      (Event.execX86 c f) = chs.count c * (filesOf env c).count f := by
  induction chs with
  | nil => simp
  | cons a rest ih =>
    simp only [List.flatMap_cons, List.count_append, List.count_cons, ih, count_execX86_pairs]
    by_cases ha : a = c
    · subst ha
      simp [beq_iff_eq]
      ring
    · have hca : ¬ c = a := fun h => ha h.symm
      simp [beq_iff_eq, ha, hca]

lemma count_execPotato_outer (env : Env) (chs : List Int) (c : Int) (f : String) :
    (chs.flatMap (fun c' => Event.listTests c' ::
       (filesOf env c').flatMap (fun g => [Event.execX86 c' g, Event.execPotato c' g]))).count
      (Event.execPotato c f) = chs.count c * (filesOf env c).count f := by
  induction chs with
  | nil => simp
  | cons a rest ih =>
    simp only [List.flatMap_cons, List.count_append, List.count_cons, ih, count_execPotato_pairs]
    by_cases ha : a = c
    · subst ha
      simp [beq_iff_eq]
      ring
    · have hca : ¬ c = a := fun h => ha h.symm
      simp [beq_iff_eq, ha, hca]

lemma count_listTests_outer (env : Env) (chs : List Int) (c : Int) :
    (chs.flatMap (fun c' => Event.listTests c' ::
       (filesOf env c').flatMap (fun g => [Event.execX86 c' g, Event.execPotato c' g]))).count
      (Event.listTests c) = chs.count c := by
  induction chs with
  | nil => simp
  | cons a rest ih =>
    simp only [List.flatMap_cons, List.count_append, List.count_cons, ih, count_listTests_pairs]
    by_cases ha : a = c
    · simp [beq_iff_eq, ha]
      omega
    · simp [beq_iff_eq, ha]

lemma count_listTests_map (chs : List Int) (c : Int) :
    (chs.map Event.listTests).count (Event.listTests c) = chs.count c := by
  induction chs with
  | nil => simp
  | cons a rest ih =>
    simp only [List.map_cons, List.count_cons, ih]
    by_cases ha : a = c <;> simp [beq_iff_eq, ha]

/-- C6: a run in which every enumerated test agrees on both backends emits
exactly this trace — the count phase listing every chapter in caller order,
the one build, then for each chapter in order its re-listing followed by
the tests in corpus-listed order, each as its x86 execution immediately
followed by its Potato CPU execution — and each backend runs each
enumerated test exactly `chs.count c * files.count f` times (so exactly
once for a chapter requested once and a file listed once, no more and no
fewer). -/
theorem claim_C6 (env : Env) (chs : List Int)
    (hls : ∀ c ∈ chs, (env.ls c).returncode = 0)
    (hnd : ∀ c ∈ chs, ∀ f ∈ filesOf env c, env.x86Ret c f = env.potatoRet c f)
    (hb : env.buildResult.returncode = 0) :
    validate_potato_cpu env chs true =
      (chs.map Event.listTests ++ Event.buildInvoke ::
         chs.flatMap (fun c => Event.listTests c ::
           (filesOf env c).flatMap (fun f => [Event.execX86 c f, Event.execPotato c f])),
       .ok ()) ∧
    (∀ c f, (validate_potato_cpu env chs true).1.count (Event.execX86 c f) =
              chs.count c * (filesOf env c).count f ∧
            (validate_potato_cpu env chs true).1.count (Event.execPotato c f) =
              chs.count c * (filesOf env c).count f) := by
  have hrc := run_chapters_ok env chs hls hnd
  have hv := validate_of_build_ok env chs hls hb
  rw [hrc] at hv
  refine ⟨hv, ?_⟩
  intro c f
  have hmapX : (chs.map Event.listTests).count (Event.execX86 c f) = 0 := by
    rw [List.count_eq_zero]
    simp
  have hmapP : (chs.map Event.listTests).count (Event.execPotato c f) = 0 := by
    rw [List.count_eq_zero]
    simp
  constructor <;>
  · rw [hv]
    simp [List.count_append, List.count_cons, count_execX86_outer, count_execPotato_outer,
      hmapX, hmapP, beq_iff_eq]

theorem claim_C6_witness :
    (∀ c ∈ [1], (envOk.ls c).returncode = 0) ∧
    (envOk.buildResult.returncode = 0) ∧
    (validate_potato_cpu envOk [1] true =
      ([1].map Event.listTests ++ Event.buildInvoke ::
         [1].flatMap (fun c => Event.listTests c ::
           (filesOf envOk c).flatMap (fun f => [Event.execX86 c f, Event.execPotato c f])),
       .ok ()) ∧
     (∀ c f, (validate_potato_cpu envOk [1] true).1.count (Event.execX86 c f) =
               ([1] : List Int).count c * (filesOf envOk c).count f ∧
             (validate_potato_cpu envOk [1] true).1.count (Event.execPotato c f) =
               ([1] : List Int).count c * (filesOf envOk c).count f)) :=
  ⟨by decide, by decide,
   claim_C6 envOk [1] (by intro c _; rfl) (by intro c _ f _; rfl) (by decide)⟩

/-- C10: the runner counts the corpus before building.  First part: if some
requested chapter's directory is missing (its `ls` fails), the run stops
with CorpusNotFound during the count phase, before any build invocation and
before any adapter call — under either setting of the build flag.  Second
part: in a successful run the trace starts with one `listTests` per
requested chapter followed by the build invocation, and each chapter is
listed exactly twice (once while counting, once while executing). -/
theorem claim_C10 :
    (∀ (env : Env) (pre : List Int) (c : Int) (post : List Int) (b : Bool),
       (∀ c' ∈ pre, (env.ls c').returncode = 0) → (env.ls c).returncode ≠ 0 →
       validate_potato_cpu env (pre ++ c :: post) b =
         (pre.map Event.listTests ++ [Event.listTests c], .error .corpusNotFound) ∧
       Event.buildInvoke ∉ (validate_potato_cpu env (pre ++ c :: post) b).1 ∧
       (∀ c' f, Event.execX86 c' f ∉ (validate_potato_cpu env (pre ++ c :: post) b).1 ∧
                Event.execPotato c' f ∉ (validate_potato_cpu env (pre ++ c :: post) b).1)) ∧
    (∀ (env : Env) (chs : List Int),
       (∀ c ∈ chs, (env.ls c).returncode = 0) →
       (∀ c ∈ chs, ∀ f ∈ filesOf env c, env.x86Ret c f = env.potatoRet c f) →
       env.buildResult.returncode = 0 →
       (∃ rest, (validate_potato_cpu env chs true).1 =
          chs.map Event.listTests ++ Event.buildInvoke :: rest) ∧
       (∀ c, (validate_potato_cpu env chs true).1.count (Event.listTests c) =
          2 * chs.count c)) := by
  constructor
  · intro env pre c post b hpre hc
    have hv := validate_of_count_fail env pre c post b hpre hc
    refine ⟨hv, ?_, ?_⟩
    · rw [hv]
      simp
    · intro c' f
      rw [hv]
      constructor <;> simp
  · intro env chs hls hnd hb
    have hrc := run_chapters_ok env chs hls hnd
    have hv := validate_of_build_ok env chs hls hb
    rw [hrc] at hv
    constructor
    · exact ⟨_, by rw [hv]⟩
    · intro c
      rw [hv]
      simp only [List.count_append, List.count_cons, count_listTests_outer, count_listTests_map]
      simp [beq_iff_eq]
      omega

/-- A two-chapter request where chapter 2's directory is missing: `ls`
exits 2 for it, while chapter 1 lists fine. -/
def envC10 : Env where
  ls := fun c => if c = 1 then ⟨0, "a.c\n", ""⟩ else ⟨2, "", "ls: no such directory"⟩
  buildResult := ⟨0, "", ""⟩
  x86Ret := fun _ _ => 0
  potatoRet := fun _ _ => 0

theorem claim_C10_witness :
    ((∀ c' ∈ [1], (envC10.ls c').returncode = 0) ∧ (envC10.ls 2).returncode ≠ 0 ∧
     (validate_potato_cpu envC10 ([1] ++ 2 :: []) true =
        ([1].map Event.listTests ++ [Event.listTests 2], .error .corpusNotFound) ∧
      Event.buildInvoke ∉ (validate_potato_cpu envC10 ([1] ++ 2 :: []) true).1 ∧
      (∀ c' f, Event.execX86 c' f ∉ (validate_potato_cpu envC10 ([1] ++ 2 :: []) true).1 ∧
               Event.execPotato c' f ∉ (validate_potato_cpu envC10 ([1] ++ 2 :: []) true).1))) ∧
    ((∃ rest, (validate_potato_cpu envOk [1] true).1 =
        [1].map Event.listTests ++ Event.buildInvoke :: rest) ∧
     (∀ c, (validate_potato_cpu envOk [1] true).1.count (Event.listTests c) =
        2 * ([1] : List Int).count c)) :=
  ⟨⟨by decide, by decide,
    claim_C10.1 envC10 [1] 2 [] true (by decide) (by decide)⟩,
   claim_C10.2 envOk [1] (by intro c _; rfl) (by intro c _ f _; rfl) (by decide)⟩
